import Mathlib

/-!
Verification of the Accessibility-analyzer repository.

The repository is a React client (`AccessibilityAnalyzer` component) and an
Express server (`/scan` and `/analyze` endpoints).  This file shallowly embeds
the data model and the logic relevant to the documented claims:

* the client-simulated heuristic `getSimulatedAnalysis`,
* the server heuristic inside `app.post('/analyze')`,
* the prompt substring extraction (`indexOf` / `slice`) of `/analyze`,
* a permissive model of `JSON.parse` (a fueled recursive-descent parser),
* the response shapes of both endpoints, and
* the client pipeline fallbacks (`runAccessibilityCheck`, `analyzePage`).

JavaScript numbers are embedded as `Int` (every quantity here is integral, so
`Math.round` is the identity), JS strings at the heuristic level as `String`,
and strings manipulated by `indexOf`/`slice` as `List Char` with explicit JS
index semantics.  A JS value that may be `undefined` is an `Option`.
-/

/-- A node of an axe-core violation: the only field the repository reads
besides its presence in `nodes.length` is `failureSummary`, which axe may
omit (hence `Option`). -/
structure Node where
  failureSummary : Option String
deriving DecidableEq

/-- An axe-core violation record as the repository consumes it: `impact`
(may be absent in axe output, hence `Option`), `help`, `description`
(read only by the server, may be absent), and the affected `nodes`. -/
structure Violation where
  impact : Option String
  help : String
  description : Option String
  nodes : List Node
deriving DecidableEq

/-- A passed axe-core check.  The repository only passes these through and
takes their count, so the record is opaque here. -/
structure Pass where
  id : String
deriving DecidableEq

/-- The axe result object `{violations, passes}` exchanged between the
endpoints and the client. -/
structure AxeResults where
  violations : List Violation
  passes : List Pass
deriving DecidableEq

/-- The derived report `{summary, recommendations, severity, score}` produced
by both heuristic paths. -/
structure Report where
  summary : String
  recommendations : List String
  severity : String
  score : Int
deriving DecidableEq

/-- JS string interpolation of a possibly-`undefined` value:
`${undefined}` prints as `"undefined"`. -/
def jsDisplay (o : Option String) : String :=
  match o with
  | none => "undefined"
  | some s => s

/-- `criticalViolations` of `getSimulatedAnalysis`:
`violations.filter(v => v.impact === 'critical').length`. -/
def criticalCount (vs : List Violation) : Nat :=
  (vs.filter (fun v => v.impact == some "critical")).length

/-- `seriousViolations` of `getSimulatedAnalysis`:
`violations.filter(v => v.impact === 'serious').length`. -/
def seriousCount (vs : List Violation) : Nat :=
  (vs.filter (fun v => v.impact == some "serious")).length

/-- The client path's severity: `'high'` if any critical, else `'medium'` if
any serious, else `'low'`. -/
def simulatedSeverity (vs : List Violation) : String :=
  if 0 < criticalCount vs then "high"
  else if 0 < seriousCount vs then "medium"
  else "low"

/-- The client path's score:
`Math.max(0, 100 - crit*15 - serious*10 - (total-crit-serious)*5)`.
All quantities are integers, so the trailing `Math.round` is the identity. -/
def simulatedScore (vs : List Violation) : Int :=
  max 0 (100 - (criticalCount vs : Int) * 15 - (seriousCount vs : Int) * 10
    - ((vs.length : Int) - (criticalCount vs : Int) - (seriousCount vs : Int)) * 5)

/-- The client path's per-violation recommendation string:
``` `Fix ${violation.impact} issue: ${violation.help} affecting ${violation.nodes.length} elements` ```. -/
def clientRecString (v : Violation) : String :=
  "Fix " ++ jsDisplay v.impact ++ " issue: " ++ v.help ++ " affecting "
    ++ toString v.nodes.length ++ " elements"

/-- The client path's `recommendations` constant:
`violations.map(...).slice(0, 5)`. -/
def simulatedMappedRecs (vs : List Violation) : List String :=
  (vs.map clientRecString).take 5

/-- The client fallback heuristic `getSimulatedAnalysis`, field by field. -/
def getSimulatedAnalysis (ax : AxeResults) : Report :=
  { summary := "Analysis found " ++ toString ax.violations.length
      ++ " accessibility violations (" ++ toString (criticalCount ax.violations)
      ++ " critical, " ++ toString (seriousCount ax.violations)
      ++ " serious). The website requires " ++ simulatedSeverity ax.violations
      ++ " priority attention to meet accessibility standards."
  , recommendations :=
      if 0 < (simulatedMappedRecs ax.violations).length
      then simulatedMappedRecs ax.violations
      else ["No specific violations found to address"]
  , severity := simulatedSeverity ax.violations
  , score := simulatedScore ax.violations }

/-- The server's impact normalisation `v.impact || 'minor'` (JS `||` replaces
the falsy values `undefined` and `""` by `'minor'`). -/
def serverImpact (v : Violation) : String :=
  match v.impact with
  | none => "minor"
  | some s => if s = "" then "minor" else s

/-- `impactCounts[tag]` of the `/analyze` handler (a count defaults to 0 when
the tag never occurs). -/
def serverCount (vs : List Violation) (tag : String) : Nat :=
  (vs.filter (fun v => serverImpact v == tag)).length

/-- The server path's severity: `'high'` if any critical, else `'medium'` if
any serious, else `'medium'` if more than two moderate, else `'low'`. -/
def serverSeverity (vs : List Violation) : String :=
  if 0 < serverCount vs "critical" then "high"
  else if 0 < serverCount vs "serious" then "medium"
  else if 2 < serverCount vs "moderate" then "medium"
  else "low"

/-- The server path's score:
`Math.max(0, Math.min(100, 100 - crit*20 - serious*15 - moderate*10 - minor*5))`.
Integral, so the trailing `Math.round` is the identity. -/
def serverScore (vs : List Violation) : Int :=
  max 0 (min 100 (100 - (serverCount vs "critical" : Int) * 20
    - (serverCount vs "serious" : Int) * 15
    - (serverCount vs "moderate" : Int) * 10
    - (serverCount vs "minor" : Int) * 5))

/-- JS truthiness of a possibly-absent string (`undefined` and `""` are
falsy). -/
def jsTruthy (o : Option String) : Bool :=
  match o with
  | none => false
  | some s => !(s == "")

/-- JS `a || b` on a possibly-absent string `a` with string default `b`. -/
def jsOrStr (a : Option String) (b : String) : String :=
  match a with
  | none => b
  | some s => if s = "" then b else s

/-- The server path's per-violation recommendation string:
``` `${impact} ${v.description || v.help}${elements}. ${v.nodes?.[0]?.failureSummary || ''}` ```
where `impact` is `[IMPACT]` when `v.impact` is truthy and `''` otherwise, and
`elements` is `` ` (${v.nodes.length} elements affected)` `` when nodes are
present. -/
def serverRecString (v : Violation) : String :=
  (if jsTruthy v.impact then "[" ++ (jsDisplay v.impact).toUpper ++ "]" else "")
    ++ " " ++ jsOrStr v.description v.help
    ++ (if 0 < v.nodes.length
        then " (" ++ toString v.nodes.length ++ " elements affected)" else "")
    ++ ". "
    ++ (match v.nodes with
        | [] => ""
        | n :: _ => match n.failureSummary with
          | none => ""
          | some fs => fs)

/-- The server path's `recommendations`: `violations.map(...).slice(0, 5)`. -/
def serverRecommendations (vs : List Violation) : List String :=
  (vs.map serverRecString).take 5

/-- The server path's summary string. -/
def serverSummary (vs : List Violation) : String :=
  "Analysis found " ++ toString vs.length ++ " accessibility issues: "
    ++ toString (serverCount vs "critical") ++ " critical, "
    ++ toString (serverCount vs "serious") ++ " serious, "
    ++ toString (serverCount vs "moderate") ++ " moderate. "
    ++ "This website requires " ++ serverSeverity vs ++ " priority attention."

/-- The report object built by the `/analyze` handler. -/
def serverReport (vs : List Violation) : Report :=
  { summary := serverSummary vs
  , recommendations := serverRecommendations vs
  , severity := serverSeverity vs
  , score := serverScore vs }

/-- The effective per-violation penalty of the client score formula:
15 for critical, 10 for serious, 5 for everything else (moderate included). -/
def clientPenalty (v : Violation) : Int :=
  if v.impact == some "critical" then 15
  else if v.impact == some "serious" then 10
  else 5

/-- The effective per-violation penalty of the server score formula:
20/15/10/5 for critical/serious/moderate/minor (a falsy impact counts as
minor) and 0 for any other impact string. -/
def serverPenalty (v : Violation) : Int :=
  if serverImpact v = "critical" then 20
  else if serverImpact v = "serious" then 15
  else if serverImpact v = "moderate" then 10
  else if serverImpact v = "minor" then 5
  else 0

/-- The per-violation penalty family asserted by the spec sentence behind
claim C1, written from the spec's words ("critical between 15 and 20, serious
between 10 and 15, moderate 10, minor/other 5"): `pc` and `ps` are the
variant's critical and serious penalties. -/
def specPenaltyC1 (pc ps : Int) (v : Violation) : Int :=
  if v.impact = some "critical" then pc
  else if v.impact = some "serious" then ps
  else if v.impact = some "moderate" then 10
  else 5

/-- The score family asserted by the spec sentence behind claim C1: start at
100, subtract the per-violation penalties, clamp to `[0,100]` (rounding is the
identity on integers). -/
def specScoreC1 (pc ps : Int) (vs : List Violation) : Int :=
  min 100 (max 0 (100 - (vs.map (specPenaltyC1 pc ps)).sum))

/-- A violation with impact `moderate`, used at concrete inputs. -/
def vModerate : Violation :=
  { impact := some "moderate", help := "Images must have alternate text"
  , description := some "Ensures img elements have alternate text"
  , nodes := [{ failureSummary := some "Fix any of the following: element has no alt attribute" }] }

/-- A violation with impact `serious`, used at concrete inputs. -/
def vSerious : Violation :=
  { impact := some "serious", help := "Elements must have sufficient color contrast"
  , description := none
  , nodes := [{ failureSummary := none }, { failureSummary := some "Fix contrast" }] }

/-- A violation with impact `critical`, used at concrete inputs. -/
def vCritical : Violation :=
  { impact := some "critical", help := "Buttons must have discernible text"
  , description := some "Ensures buttons have discernible text"
  , nodes := [] }

/-- JS `indexOf` substring test helper: does `pat` begin the list `s`? -/
def leadsWith : List Char → List Char → Bool
  | [], _ => true
  | _ :: _, [] => false
  | p :: ps, c :: cs => p == c && leadsWith ps cs

/-- Index of the first occurrence of `pat` in `s`, if any. -/
def firstOcc (pat : List Char) : List Char → Option Nat
  | [] => if leadsWith pat [] then some 0 else none
  | c :: s2 =>
    if leadsWith pat (c :: s2) then some 0
    else (firstOcc pat s2).map (· + 1)

/-- JS `String.prototype.indexOf(pat, pos)`: searches from
`max 0 (min pos length)` and returns `-1` when absent. -/
def jsIndexOf (s pat : List Char) (pos : Int) : Int :=
  let start : Nat := (max 0 (min pos (s.length : Int))).toNat
  match firstOcc pat (s.drop start) with
  | some i => (start : Int) + i
  | none => -1

/-- JS `String.prototype.slice(start, finish)`: negative indices count from
the end, both are clamped to `[0, length]`, and the result is the segment
from the normalised start (inclusive) to the normalised end (exclusive). -/
def jsSlice (s : List Char) (start finish : Int) : List Char :=
  let len : Int := s.length
  let a : Int := if start < 0 then max 0 (len + start) else min start len
  let b : Int := if finish < 0 then max 0 (len + finish) else min finish len
  (s.drop a.toNat).take (b - a).toNat

/-- The marker string the `/analyze` handler searches for in the prompt. -/
def scanMarker : List Char := "Accessibility scan data for".data

/-- The `/analyze` handler's substring extraction:
`dataStart = prompt.indexOf('Accessibility scan data for')`,
`jsonStart = prompt.indexOf('[', dataStart)`,
`jsonEnd = prompt.indexOf(']', jsonStart) + 1`,
result `prompt.slice(jsonStart, jsonEnd)`. -/
def extractViolText (prompt : List Char) : List Char :=
  let dataStart := jsIndexOf prompt scanMarker 0
  let jsonStart := jsIndexOf prompt ['['] dataStart
  let jsonEnd := jsIndexOf prompt [']'] jsonStart + 1
  jsSlice prompt jsonStart jsonEnd

/-- A parsed JSON value.  Numbers and literals are kept as raw atom text:
the repository only ever reads string fields, array elements and object
fields of the parsed value. -/
inductive Json where
  | str (content : List Char)
  | atom (text : List Char)
  | arr (elems : List Json)
  | obj (fields : List (List Char × Json))

/-- JSON insignificant whitespace. -/
def isWsChar (c : Char) : Bool :=
  c == ' ' || c == '\n' || c == '\t' || c == '\r'

/-- Drop leading JSON whitespace. -/
def skipWs : List Char → List Char
  | [] => []
  | c :: cs => if isWsChar c then skipWs cs else c :: cs

/-- Characters allowed in an unquoted atom (numbers, `true`, `false`,
`null`); deliberately permissive, so the model accepts a superset of what
`JSON.parse` accepts and every rejection claim transfers. -/
def isAtomChar (c : Char) : Bool :=
  c.isAlphanum || c == '-' || c == '+' || c == '.'

/-- Parse the body of a JSON string after its opening quote, returning the
raw content (escapes kept) and the rest of the input after the closing
quote. -/
def parseStringBody : Nat → List Char → Option (List Char × List Char)
  | 0, _ => none
  | _ + 1, [] => none
  | fuel + 1, c :: cs =>
    if c == '"' then some ([], cs)
    else if c == '\\' then
      match cs with
      | [] => none
      | e :: cs2 => (parseStringBody fuel cs2).map (fun p => (c :: e :: p.1, p.2))
    else (parseStringBody fuel cs).map (fun p => (c :: p.1, p.2))

mutual

/-- Parse one JSON value; returns the value and the remaining input. -/
def parseValue : Nat → List Char → Option (Json × List Char)
  | 0, _ => none
  | fuel + 1, s =>
    match skipWs s with
    | [] => none
    | c :: cs =>
      if c == '"' then (parseStringBody fuel cs).map (fun p => (.str p.1, p.2))
      else if c == '[' then parseArrayTail fuel cs
      else if c == '{' then parseObjTail fuel cs
      else if isAtomChar c then
        some (.atom (c :: cs.takeWhile isAtomChar), cs.dropWhile isAtomChar)
      else none

/-- Parse the remainder of a JSON array after its opening bracket. -/
def parseArrayTail : Nat → List Char → Option (Json × List Char)
  | 0, _ => none
  | fuel + 1, s =>
    match skipWs s with
    | [] => parseElems fuel s
    | c :: cs => if c == ']' then some (.arr [], cs) else parseElems fuel s

/-- Parse one or more comma-separated array elements up to the closing
bracket. -/
def parseElems : Nat → List Char → Option (Json × List Char)
  | 0, _ => none
  | fuel + 1, s =>
    match parseValue fuel s with
    | none => none
    | some (j, r) =>
      match skipWs r with
      | [] => none
      | c :: cs =>
        if c == ',' then
          match parseElems fuel cs with
          | some (.arr js, r2) => some (.arr (j :: js), r2)
          | _ => none
        else if c == ']' then some (.arr [j], cs)
        else none

/-- Parse the remainder of a JSON object after its opening brace. -/
def parseObjTail : Nat → List Char → Option (Json × List Char)
  | 0, _ => none
  | fuel + 1, s =>
    match skipWs s with
    | [] => parseMembers fuel s
    | c :: cs => if c == '}' then some (.obj [], cs) else parseMembers fuel s

/-- Parse one or more comma-separated object members up to the closing
brace. -/
def parseMembers : Nat → List Char → Option (Json × List Char)
  | 0, _ => none
  | fuel + 1, s =>
    match skipWs s with
    | [] => none
    | c :: cs =>
      if c == '"' then
        match parseStringBody fuel cs with
        | none => none
        | some (k, r) =>
          match skipWs r with
          | [] => none
          | c2 :: cs2 =>
            if c2 == ':' then
              match parseValue fuel cs2 with
              | none => none
              | some (v, r2) =>
                match skipWs r2 with
                | [] => none
                | c3 :: cs3 =>
                  if c3 == ',' then
                    match parseMembers fuel cs3 with
                    | some (.obj fs, r3) => some (.obj ((k, v) :: fs), r3)
                    | _ => none
                  else if c3 == '}' then some (.obj [(k, v)], cs3)
                  else none
            else none
      else none

end

/-- The model of `JSON.parse`: parse one value and require only trailing
whitespace.  The fuel is generous; with insufficient fuel the model only
rejects more, which keeps every rejection fact transferable. -/
def jsonParse (s : List Char) : Option Json :=
  match parseValue (4 * s.length + 8) s with
  | some (j, r) => if skipWs r = [] then some j else none
  | none => none

/-- The square-bracket scanner state: outside any string literal at a given
bracket depth, inside a string, or right after a backslash inside a
string. -/
inductive ScanSt where
  | out (depth : Int)
  | inStr (depth : Int)
  | esc (depth : Int)
deriving DecidableEq

/-- One scanner transition. -/
def scanStep (st : ScanSt) (c : Char) : ScanSt :=
  match st with
  | .out d =>
    if c == '"' then .inStr d
    else if c == '[' then .out (d + 1)
    else if c == ']' then .out (d - 1)
    else .out d
  | .inStr d =>
    if c == '"' then .out d
    else if c == '\\' then .esc d
    else .inStr d
  | .esc d => .inStr d

/-- Run the scanner over a character list. -/
def scanL (st : ScanSt) (s : List Char) : ScanSt := s.foldl scanStep st

/-- Last-wins lookup in a JSON object's field list (the JS object built by
`JSON.parse` keeps the last duplicate key). -/
def jlookup (fields : List (List Char × Json)) (k : List Char) : Option Json :=
  match fields with
  | [] => none
  | (k2, v) :: rest =>
    match jlookup rest k with
    | some r => some r
    | none => if k2 = k then some v else none

/-- Read a field of a JSON object (JS property access on the parsed value;
`undefined` on non-objects). -/
def jfield (j : Json) (k : List Char) : Option Json :=
  match j with
  | .obj fs => jlookup fs k
  | _ => none

/-- A parsed JSON value as a JS string, when it is one. -/
def jstring? (j : Json) : Option String :=
  match j with
  | .str s => some (String.mk s)
  | _ => none

/-- Decode a node object of the parsed violations array. -/
def decodeNode (j : Json) : Node :=
  { failureSummary := (jfield j "failureSummary".data).bind jstring? }

/-- Decode a violation object of the parsed violations array into the
violation record the heuristic reads (absent or non-string fields read as
absent, a missing nodes array as empty, matching how the handler's optional
chaining treats them). -/
def decodeViolation (j : Json) : Violation :=
  { impact := (jfield j "impact".data).bind jstring?
  , help := ((jfield j "help".data).bind jstring?).getD ""
  , description := (jfield j "description".data).bind jstring?
  , nodes :=
      match jfield j "nodes".data with
      | some (.arr xs) => xs.map decodeNode
      | _ => [] }

/-- Escape a string for JSON output (quote and backslash). -/
def jsonEscape (s : String) : String :=
  String.mk (s.data.foldr
    (fun c acc => if c == '"' || c == '\\' then '\\' :: c :: acc else c :: acc) [])

/-- A JSON string literal. -/
def jsonQuote (s : String) : String := "\"" ++ jsonEscape s ++ "\""

/-- A JSON array of string literals. -/
def jsonStrArr (xs : List String) : String :=
  "[" ++ String.intercalate "," (xs.map jsonQuote) ++ "]"

/-- `JSON.stringify` of the report object sent back by `/analyze`. -/
def reportToJsonString (r : Report) : String :=
  "\x7b\"summary\":" ++ jsonQuote r.summary
    ++ ",\"recommendations\":" ++ jsonStrArr r.recommendations
    ++ ",\"severity\":" ++ jsonQuote r.severity
    ++ ",\"score\":" ++ toString r.score ++ "\x7d"

/-- A response of the `/analyze` endpoint: `{report}` on success, or an
error body with status, `error` message and optional `details` (the JS
`error.stack`, modelled by its message text). -/
inductive AnalyzeResp where
  | ok (report : String)
  | err (status : Nat) (error : String) (details : Option String)
deriving DecidableEq

/-- The `/analyze` handler over the request body's `prompt` field (`none`
models an absent field and `some []` an empty string, both falsy in JS).
A parse failure of the extracted fragment raises
`'Invalid accessibility data format'` and a non-array parse raises
`'No violations data found'`; both land in the catch-all, which sends 500
with `error` and `details`. -/
def analyzeHandler (prompt : Option (List Char)) : AnalyzeResp :=
  match prompt with
  | none => .err 400 "Prompt is required" none
  | some p =>
    if p = [] then .err 400 "Prompt is required" none
    else
      match jsonParse (extractViolText p) with
      | none => .err 500 "Analysis failed: Invalid accessibility data format"
          (some "Error: Invalid accessibility data format")
      | some (.arr xs) =>
          .ok (reportToJsonString (serverReport (xs.map decodeViolation)))
      | some _ => .err 500 "Analysis failed: No violations data found"
          (some "Error: No violations data found")

/-- A response of the `/scan` endpoint. -/
inductive ScanResp where
  | ok (violations : List Violation) (passes : List Pass)
  | err (status : Nat) (error : String)
deriving DecidableEq

/-- Outcome of the `/scan` handler's try block (the axios fetch, JSDOM
construction and axe run, any of which may throw). -/
inductive ScanOutcome where
  | failure (msg : String)
  | results (violations : List Violation) (passes : List Pass)

/-- The `/scan` handler over the `url` query parameter (`none` models an
absent parameter and `some []` an empty one, both falsy) and the try-block
outcome.  On success the violations are re-mapped with spread syntax, which
re-lists existing fields and is the identity here. -/
def scanHandler (url : Option (List Char)) (o : ScanOutcome) : ScanResp :=
  match url with
  | none => .err 400 "URL parameter is required"
  | some u =>
    if u = [] then .err 400 "URL parameter is required"
    else
      match o with
      | .failure m => .err 500 ("Failed to analyze website: " ++ m)
      | .results vs ps =>
          .ok (vs.map (fun v =>
            { v with nodes := v.nodes.map (fun n =>
                { n with failureSummary := n.failureSummary }) })) ps

/-- Outcome of the client's `/scan` fetch inside `runAccessibilityCheck`:
the fetch or `response.json()` may throw, or a response arrives with its
`ok` flag and parsed body (`none` models a body without a `violations`
field). -/
inductive FetchOutcome where
  | failure (msg : String)
  | response (ok : Bool) (data : Option AxeResults)

/-- The client's `runAccessibilityCheck`: every throw (network failure,
non-ok response, malformed body) lands in the catch, which returns the
empty result `{violations: [], passes: []}`. -/
def runAccessibilityCheck : FetchOutcome → AxeResults
  | .failure _ => { violations := [], passes := [] }
  | .response ok data =>
    match ok, data with
    | true, some d => d
    | true, none => { violations := [], passes := [] }
    | false, _ => { violations := [], passes := [] }

/-- Does `runAccessibilityCheck` take its catch/fallback path? -/
def scanFellBack : FetchOutcome → Bool
  | .failure _ => true
  | .response ok data =>
    match ok, data with
    | true, some _ => false
    | _, _ => true

/-- Outcome of the client's `/analyze` call inside `analyzePage`: the fetch
may throw, the response may be non-ok (which throws), the body's `report`
field may be falsy, or `JSON.parse(data.report)` may succeed (`some`) or
throw (`none`). -/
inductive AnalyzeCallOutcome where
  | failure (msg : String)
  | httpNotOk (status : Nat)
  | okNoReport
  | okReport (parsed : Option Report)

/-- The client's `analyzePage`: every failure path (throw, non-ok response,
missing report, parse failure) yields the locally recomputed
`getSimulatedAnalysis`. -/
def analyzePage (ax : AxeResults) : AnalyzeCallOutcome → Report
  | .failure _ => getSimulatedAnalysis ax
  | .httpNotOk _ => getSimulatedAnalysis ax
  | .okNoReport => getSimulatedAnalysis ax
  | .okReport none => getSimulatedAnalysis ax
  | .okReport (some r) => r

/-- Does `analyzePage` fall back to the simulated analysis? -/
def analyzeFellBack : AnalyzeCallOutcome → Bool
  | .okReport (some _) => false
  | _ => true

/-- The prefix, before the embedded array, of a concrete realistic prompt
for the `/analyze` endpoint (it begins with the marker the handler searches
for). -/
def c9PromptA : List Char :=
  "Accessibility scan data for http://example.com:\n      ".data

/-- The text strictly between the embedded array's opening bracket and the
first closing bracket of a concrete realistic prompt: one violation object
whose nodes array is still open. -/
def c9U : List Char :=
  "\n  \x7b\n    \"id\": \"image-alt\",\n    \"nodes\": [\n      1, 2".data

/-- The rest of a concrete realistic prompt after the first closing
bracket: the violation object, the top-level array and the prompt's trailing
lines all close here, past the point where the extraction stops. -/
def c9W : List Char :=
  "\x7d\n]\n\nTotal violations: 1\n".data


theorem criticalCount_eq_countP (vs : List Violation) :
    criticalCount vs = vs.countP (fun v => v.impact == some "critical") :=
  (List.countP_eq_length_filter _ _).symm

theorem seriousCount_eq_countP (vs : List Violation) :
    seriousCount vs = vs.countP (fun v => v.impact == some "serious") :=
  (List.countP_eq_length_filter _ _).symm

theorem serverCount_eq_countP (vs : List Violation) (tag : String) :
    serverCount vs tag = vs.countP (fun v => serverImpact v == tag) :=
  (List.countP_eq_length_filter _ _).symm

theorem serverImpact_beq_critical (v : Violation) :
    (serverImpact v == "critical") = (v.impact == some "critical") := by
  unfold serverImpact
  cases h : v.impact with
  | none => decide
  | some s =>
    by_cases hs : s = ""
    · subst hs; decide
    · simp only [if_neg hs]; rfl

theorem serverImpact_beq_serious (v : Violation) :
    (serverImpact v == "serious") = (v.impact == some "serious") := by
  unfold serverImpact
  cases h : v.impact with
  | none => decide
  | some s =>
    by_cases hs : s = ""
    · subst hs; decide
    · simp only [if_neg hs]; rfl

theorem serverImpact_beq_moderate (v : Violation) :
    (serverImpact v == "moderate") = (v.impact == some "moderate") := by
  unfold serverImpact
  cases h : v.impact with
  | none => decide
  | some s =>
    by_cases hs : s = ""
    · subst hs; decide
    · simp only [if_neg hs]; rfl

theorem serverCount_critical (vs : List Violation) :
    serverCount vs "critical" = criticalCount vs := by
  rw [serverCount_eq_countP, criticalCount_eq_countP]
  exact List.countP_congr (fun v _ => by rw [serverImpact_beq_critical])

theorem serverCount_serious (vs : List Violation) :
    serverCount vs "serious" = seriousCount vs := by
  rw [serverCount_eq_countP, seriousCount_eq_countP]
  exact List.countP_congr (fun v _ => by rw [serverImpact_beq_serious])

theorem serverCount_moderate (vs : List Violation) :
    serverCount vs "moderate" = vs.countP (fun v => v.impact == some "moderate") := by
  rw [serverCount_eq_countP]
  exact List.countP_congr (fun v _ => by rw [serverImpact_beq_moderate])

theorem crit_pos_iff (vs : List Violation) :
    0 < criticalCount vs ↔ ∃ v ∈ vs, v.impact = some "critical" := by
  rw [criticalCount_eq_countP, List.countP_pos_iff]
  simp only [beq_iff_eq]

theorem ser_pos_iff (vs : List Violation) :
    0 < seriousCount vs ↔ ∃ v ∈ vs, v.impact = some "serious" := by
  rw [seriousCount_eq_countP, List.countP_pos_iff]
  simp only [beq_iff_eq]

theorem clientPenalty_sum (vs : List Violation) :
    (vs.map clientPenalty).sum
      = (criticalCount vs : Int) * 15 + (seriousCount vs : Int) * 10
        + ((vs.length : Int) - (criticalCount vs : Int) - (seriousCount vs : Int)) * 5 := by
  induction vs with
  | nil => simp [criticalCount, seriousCount]
  | cons v vs ih =>
    rw [List.map_cons, List.sum_cons, ih, List.length_cons,
        criticalCount_eq_countP (v :: vs), seriousCount_eq_countP (v :: vs),
        criticalCount_eq_countP vs, seriousCount_eq_countP vs,
        List.countP_cons, List.countP_cons]
    unfold clientPenalty
    by_cases hc : v.impact = some "critical"
    · simp +decide [beq_iff_eq, hc]
      ring
    · by_cases hs : v.impact = some "serious"
      · simp +decide [beq_iff_eq, hc, hs]
        ring
      · simp [beq_iff_eq, hc, hs]
        ring

theorem serverPenalty_sum (vs : List Violation) :
    (vs.map serverPenalty).sum
      = (serverCount vs "critical" : Int) * 20 + (serverCount vs "serious" : Int) * 15
        + (serverCount vs "moderate" : Int) * 10 + (serverCount vs "minor" : Int) * 5 := by
  induction vs with
  | nil => simp [serverCount]
  | cons v vs ih =>
    rw [List.map_cons, List.sum_cons, ih,
        serverCount_eq_countP (v :: vs) "critical", serverCount_eq_countP (v :: vs) "serious",
        serverCount_eq_countP (v :: vs) "moderate", serverCount_eq_countP (v :: vs) "minor",
        serverCount_eq_countP vs "critical", serverCount_eq_countP vs "serious",
        serverCount_eq_countP vs "moderate", serverCount_eq_countP vs "minor",
        List.countP_cons, List.countP_cons, List.countP_cons, List.countP_cons]
    unfold serverPenalty
    by_cases h1 : serverImpact v = "critical"
    · simp +decide [beq_iff_eq, h1]; ring
    · by_cases h2 : serverImpact v = "serious"
      · simp +decide [beq_iff_eq, h1, h2]; ring
      · by_cases h3 : serverImpact v = "moderate"
        · simp +decide [beq_iff_eq, h1, h2, h3]; ring
        · by_cases h4 : serverImpact v = "minor"
          · simp +decide [beq_iff_eq, h1, h2, h3, h4]; ring
          · simp [beq_iff_eq, h1, h2, h3, h4]

theorem simulatedScore_eq_sum (vs : List Violation) :
    simulatedScore vs = max 0 (100 - (vs.map clientPenalty).sum) := by
  rw [clientPenalty_sum]
  unfold simulatedScore
  congr 1
  ring

theorem serverScore_eq_sum (vs : List Violation) :
    serverScore vs = max 0 (min 100 (100 - (vs.map serverPenalty).sum)) := by
  rw [serverPenalty_sum]
  unfold serverScore
  congr 2
  ring

theorem clientPenalty_nonneg (v : Violation) : 0 ≤ clientPenalty v := by
  unfold clientPenalty
  split_ifs <;> norm_num

theorem simulatedScore_le (vs : List Violation) : simulatedScore vs ≤ 100 := by
  rw [simulatedScore_eq_sum]
  have h : 0 ≤ (vs.map clientPenalty).sum := by
    refine List.sum_nonneg ?_
    intro x hx
    obtain ⟨v, _, rfl⟩ := List.mem_map.mp hx
    exact clientPenalty_nonneg v
  refine max_le (by norm_num) (by omega)

theorem simulatedSeverity_cases (vs : List Violation) :
    simulatedSeverity vs =
      if 0 < criticalCount vs then "high"
      else if 0 < seriousCount vs then "medium"
      else "low" := rfl

theorem serverSeverity_cases (vs : List Violation) :
    serverSeverity vs =
      if 0 < criticalCount vs then "high"
      else if 0 < seriousCount vs then "medium"
      else if 2 < vs.countP (fun v => v.impact == some "moderate") then "medium"
      else "low" := by
  unfold serverSeverity
  rw [serverCount_critical, serverCount_serious, serverCount_moderate]

theorem simulatedSeverity_high_iff (vs : List Violation) :
    simulatedSeverity vs = "high" ↔ 0 < criticalCount vs := by
  unfold simulatedSeverity
  by_cases h1 : 0 < criticalCount vs
  · simp [h1]
  · by_cases h2 : 0 < seriousCount vs <;> simp [h1, h2]

theorem serverSeverity_high_iff (vs : List Violation) :
    serverSeverity vs = "high" ↔ 0 < criticalCount vs := by
  rw [serverSeverity_cases]
  by_cases h1 : 0 < criticalCount vs
  · simp [h1]
  · by_cases h2 : 0 < seriousCount vs
    · simp [h1, h2]
    · by_cases h3 : 2 < vs.countP (fun v => v.impact == some "moderate") <;>
        simp [h1, h2, h3]

/-- C1: the claim's penalty table (critical in `[15,20]`, serious in
`[10,15]`, moderate exactly 10, minor/other 5) does not describe the
client-simulated path: on the single-violation list `[vModerate]` the client
computes a score of 95 (it charges moderate violations only 5), while every
variant of the claimed family yields 90. -/
theorem C1_counterexample :
    ¬ ∃ pc ps : Int, 15 ≤ pc ∧ pc ≤ 20 ∧ 10 ≤ ps ∧ ps ≤ 15
      ∧ simulatedScore [vModerate] = specScoreC1 pc ps [vModerate] := by
  rintro ⟨pc, ps, -, -, -, -, h⟩
  have h1 : simulatedScore [vModerate] = 95 := by decide
  have hp : specPenaltyC1 pc ps vModerate = 10 := by
    unfold specPenaltyC1 vModerate
    simp +decide
  have h2 : specScoreC1 pc ps [vModerate] = 90 := by
    unfold specScoreC1
    rw [List.map_singleton, List.sum_singleton, hp]
    decide
  rw [h1, h2] at h
  exact absurd h (by decide)

/-- C1 (amended): both paths start at 100, subtract a fixed per-violation
penalty and clamp below at 0; the client charges 15 for critical, 10 for
serious and 5 for every other violation (moderate included), and its score
never exceeds 100 because the penalties are nonnegative; the server charges
20/15/10/5 for critical/serious/moderate/minor (a missing or empty impact
counting as minor), 0 for unrecognised impact strings, and clamps above at
100 explicitly; every quantity is an integer, so rounding is the identity. -/
theorem C1_amended_penalty_table (vs : List Violation) :
    simulatedScore vs = max 0 (100 - (vs.map clientPenalty).sum)
    ∧ simulatedScore vs ≤ 100
    ∧ serverScore vs = max 0 (min 100 (100 - (vs.map serverPenalty).sum)) :=
  ⟨simulatedScore_eq_sum vs, simulatedScore_le vs, serverScore_eq_sum vs⟩

/-- C2: on both paths the severity is `"high"` exactly when some violation
has impact `"critical"`, else `"medium"` when some violation has impact
`"serious"` — the server variant also saying `"medium"` when more than two
violations have impact `"moderate"` — and `"low"` otherwise. -/
theorem C2_severity_rule (vs : List Violation) :
    (simulatedSeverity vs =
      if ∃ v ∈ vs, v.impact = some "critical" then "high"
      else if ∃ v ∈ vs, v.impact = some "serious" then "medium"
      else "low")
    ∧ (serverSeverity vs =
      if ∃ v ∈ vs, v.impact = some "critical" then "high"
      else if ∃ v ∈ vs, v.impact = some "serious" then "medium"
      else if 2 < vs.countP (fun v => v.impact == some "moderate") then "medium"
      else "low") := by
  have hc := crit_pos_iff vs
  have hs := ser_pos_iff vs
  constructor
  · rw [simulatedSeverity_cases]
    by_cases h1 : ∃ v ∈ vs, v.impact = some "critical"
    · rw [if_pos (hc.mpr h1), if_pos h1]
    · rw [if_neg (fun hlt => h1 (hc.mp hlt)), if_neg h1]
      by_cases h2 : ∃ v ∈ vs, v.impact = some "serious"
      · rw [if_pos (hs.mpr h2), if_pos h2]
      · rw [if_neg (fun hlt => h2 (hs.mp hlt)), if_neg h2]
  · rw [serverSeverity_cases]
    by_cases h1 : ∃ v ∈ vs, v.impact = some "critical"
    · rw [if_pos (hc.mpr h1), if_pos h1]
    · rw [if_neg (fun hlt => h1 (hc.mp hlt)), if_neg h1]
      by_cases h2 : ∃ v ∈ vs, v.impact = some "serious"
      · rw [if_pos (hs.mpr h2), if_pos h2]
      · rw [if_neg (fun hlt => h2 (hs.mp hlt)), if_neg h2]

/-- C3: the two scoring paths are not identical: on three moderate
violations the client says severity `"low"` with score 85 while the server
says severity `"medium"` with score 70. -/
theorem C3_counterexample :
    simulatedSeverity [vModerate, vModerate, vModerate] = "low"
    ∧ serverSeverity [vModerate, vModerate, vModerate] = "medium"
    ∧ simulatedScore [vModerate, vModerate, vModerate] = 85
    ∧ serverScore [vModerate, vModerate, vModerate] = 70
    ∧ ("low" : String) ≠ "medium"
    ∧ (85 : Int) ≠ 70 := by decide

/-- C3 (amended): the two paths share only part of the heuristic: they agree
that the severity is `"high"` exactly when a critical violation is present,
and they compute the same severity whenever at most two violations have
impact `"moderate"`; their scores (and the severity on more than two
moderates) differ because the penalty constants differ. -/
theorem C3_amended_partial_agreement (vs : List Violation) :
    (simulatedSeverity vs = "high" ↔ serverSeverity vs = "high")
    ∧ (vs.countP (fun v => v.impact == some "moderate") ≤ 2 →
        simulatedSeverity vs = serverSeverity vs) := by
  constructor
  · rw [simulatedSeverity_high_iff, serverSeverity_high_iff]
  · intro hm
    rw [simulatedSeverity_cases, serverSeverity_cases]
    by_cases h1 : 0 < criticalCount vs
    · simp [h1]
    · by_cases h2 : 0 < seriousCount vs
      · simp [h1, h2]
      · simp [h1, h2, Nat.not_lt.mpr hm]

/-- C3 (amended) witness at a concrete input. -/
theorem C3_amended_partial_agreement_witness :
    simulatedSeverity [vSerious, vModerate] = serverSeverity [vSerious, vModerate] :=
  (C3_amended_partial_agreement [vSerious, vModerate]).2 (by decide)

/-- C5: on either path the derived report's severity is one of `"low"`,
`"medium"`, `"high"`, and its score lies in `[0, 100]`; the client applies
only a lower clamp, its upper bound following from the penalties being
nonnegative. -/
theorem C5_report_invariants (vs : List Violation) (ps : List Pass) :
    ((getSimulatedAnalysis ⟨vs, ps⟩).severity = "low"
      ∨ (getSimulatedAnalysis ⟨vs, ps⟩).severity = "medium"
      ∨ (getSimulatedAnalysis ⟨vs, ps⟩).severity = "high")
    ∧ 0 ≤ (getSimulatedAnalysis ⟨vs, ps⟩).score
    ∧ (getSimulatedAnalysis ⟨vs, ps⟩).score ≤ 100
    ∧ ((serverReport vs).severity = "low"
      ∨ (serverReport vs).severity = "medium"
      ∨ (serverReport vs).severity = "high")
    ∧ 0 ≤ (serverReport vs).score
    ∧ (serverReport vs).score ≤ 100 := by
  refine ⟨?_, ?_, ?_, ?_, ?_, ?_⟩
  · show simulatedSeverity vs = "low" ∨ simulatedSeverity vs = "medium"
      ∨ simulatedSeverity vs = "high"
    unfold simulatedSeverity
    split_ifs <;> simp
  · exact le_max_left 0 _
  · exact simulatedScore_le vs
  · show serverSeverity vs = "low" ∨ serverSeverity vs = "medium"
      ∨ serverSeverity vs = "high"
    unfold serverSeverity
    split_ifs <;> simp
  · exact le_max_left 0 _
  · exact max_le (by norm_num) (min_le_left 100 _)

/-- C4: on both paths the recommendation list (the `map`/`slice(0, 5)`
construction the handlers build) has exactly `min (length, 5)` entries and
its `i`-th entry, for every `i < min (length, 5)`, is the descriptive string
derived from the `i`-th violation. -/
theorem C4_recommendation_mapping (vs : List Violation) (i : Nat)
    (h : i < min vs.length 5) :
    (simulatedMappedRecs vs)[i]? = (vs[i]?).map clientRecString
    ∧ (serverRecommendations vs)[i]? = (vs[i]?).map serverRecString
    ∧ (simulatedMappedRecs vs).length = min vs.length 5
    ∧ (serverRecommendations vs).length = min vs.length 5 := by
  have hlen : ∀ f : Violation → String, ((vs.map f).take 5).length = min vs.length 5 := by
    intro f
    rw [List.length_take, List.length_map, Nat.min_comm]
  have hget : ∀ f : Violation → String, ((vs.map f).take 5)[i]? = (vs[i]?).map f := by
    intro f
    rw [List.getElem?_take, if_pos (by omega), List.getElem?_map]
  exact ⟨hget clientRecString, hget serverRecString,
    hlen clientRecString, hlen serverRecString⟩

/-- C4 witness at a concrete input. -/
theorem C4_recommendation_mapping_witness :
    (simulatedMappedRecs [vCritical, vSerious])[1]?
        = ([vCritical, vSerious][1]?).map clientRecString
    ∧ (serverRecommendations [vCritical, vSerious])[1]?
        = ([vCritical, vSerious][1]?).map serverRecString
    ∧ (simulatedMappedRecs [vCritical, vSerious]).length = min 2 5
    ∧ (serverRecommendations [vCritical, vSerious]).length = min 2 5 :=
  C4_recommendation_mapping [vCritical, vSerious] 1 (by decide)

/-- C10: the client-simulated report never has an empty recommendation list:
for an empty violation list it is exactly
`["No specific violations found to address"]`, and otherwise it is the mapped
list truncated to 5 entries. -/
theorem C10_nonempty_recommendations (vs : List Violation) (ps : List Pass) :
    (getSimulatedAnalysis ⟨vs, ps⟩).recommendations ≠ []
    ∧ (vs = [] →
        (getSimulatedAnalysis ⟨vs, ps⟩).recommendations
          = ["No specific violations found to address"])
    ∧ (vs ≠ [] →
        (getSimulatedAnalysis ⟨vs, ps⟩).recommendations
          = (vs.map clientRecString).take 5) := by
  have hrecs : (getSimulatedAnalysis ⟨vs, ps⟩).recommendations
      = if 0 < (simulatedMappedRecs vs).length then simulatedMappedRecs vs
        else ["No specific violations found to address"] := rfl
  have hlen : (simulatedMappedRecs vs).length = min 5 vs.length := by
    unfold simulatedMappedRecs
    rw [List.length_take, List.length_map]
  refine ⟨?_, ?_, ?_⟩
  · rw [hrecs]
    split_ifs with hpos
    · intro hnil
      rw [hnil] at hpos
      simp at hpos
    · simp
  · intro hempty
    subst hempty
    rfl
  · intro hne
    rw [hrecs, if_pos]
    · rfl
    · rw [hlen]
      have : 0 < vs.length := List.length_pos.mpr hne
      omega

/-- C10 witness at concrete inputs (the empty-violation branch). -/
theorem C10_nonempty_recommendations_witness :
    (getSimulatedAnalysis ⟨[], []⟩).recommendations
      = ["No specific violations found to address"] :=
  (C10_nonempty_recommendations [] []).2.1 rfl

theorem scanL_nil (st : ScanSt) : scanL st [] = st := rfl

theorem scanL_cons (st : ScanSt) (c : Char) (l : List Char) :
    scanL st (c :: l) = scanL (scanStep st c) l := rfl

theorem scanL_append (st : ScanSt) (a b : List Char) :
    scanL st (a ++ b) = scanL (scanL st a) b :=
  List.foldl_append scanStep st a b

theorem scanStep_out_id (c : Char) (h1 : c ≠ '"') (h2 : c ≠ '[') (h3 : c ≠ ']')
    (d : Int) : scanStep (.out d) c = .out d := by
  unfold scanStep
  simp [beq_iff_eq, h1, h2, h3]

theorem scanStep_out_of_ws (c : Char) (h : isWsChar c = true) (d : Int) :
    scanStep (.out d) c = .out d := by
  unfold isWsChar at h
  simp only [Bool.or_eq_true, beq_iff_eq] at h
  refine scanStep_out_id c ?_ ?_ ?_ d <;>
    rcases h with ((h | h) | h) | h <;> subst h <;> decide

theorem scanL_out_of_ws (l : List Char) (hl : ∀ c ∈ l, isWsChar c = true)
    (d : Int) : scanL (.out d) l = .out d := by
  induction l with
  | nil => rfl
  | cons c cs ih =>
    rw [scanL_cons, scanStep_out_of_ws c (hl c (by simp)) d]
    exact ih (fun x hx => hl x (by simp [hx]))

theorem skipWs_consumed (s : List Char) :
    ∃ t, s = t ++ skipWs s ∧ (∀ c ∈ t, isWsChar c = true) := by
  induction s with
  | nil => exact ⟨[], rfl, by simp⟩
  | cons c cs ih =>
    by_cases hw : isWsChar c
    · obtain ⟨t, ht, hall⟩ := ih
      refine ⟨c :: t, ?_, ?_⟩
      · rw [skipWs, if_pos hw, List.cons_append, ← ht]
      · intro x hx
        rcases List.mem_cons.mp hx with h | h
        · subst h; exact hw
        · exact hall x h
    · refine ⟨[], ?_, by simp⟩
      rw [skipWs, if_neg hw, List.nil_append]

theorem skipWs_nil_all_ws (s : List Char) (h : skipWs s = []) :
    ∀ c ∈ s, isWsChar c = true := by
  induction s with
  | nil => simp
  | cons c cs ih =>
    rw [skipWs] at h
    by_cases hw : isWsChar c
    · rw [if_pos hw] at h
      intro x hx
      rcases List.mem_cons.mp hx with hx | hx
      · subst hx; exact hw
      · exact ih h x hx
    · rw [if_neg hw] at h
      exact absurd h (by simp)

theorem parseStringBody_consumed (fuel : Nat) :
    ∀ s b r, parseStringBody fuel s = some (b, r) →
      ∃ t, s = t ++ r ∧ ∀ d : Int, scanL (.inStr d) t = .out d := by
  induction fuel with
  | zero => intro s b r h; simp [parseStringBody] at h
  | succ f ih =>
    intro s b r h
    match s with
    | [] => simp [parseStringBody] at h
    | c :: cs =>
      simp only [parseStringBody] at h
      by_cases hq : c == '"'
      · rw [if_pos hq] at h
        obtain ⟨-, hr⟩ := Prod.mk.injEq .. ▸ Option.some.injEq .. ▸ h
        refine ⟨[c], by rw [← hr]; rfl, fun d => ?_⟩
        have hc : c = '"' := beq_iff_eq.mp hq
        subst hc
        rfl
      · rw [if_neg (by simpa using hq)] at h
        by_cases hb : c == '\\'
        · rw [if_pos hb] at h
          match cs with
          | [] => simp at h
          | e :: cs2 =>
            dsimp only at h
            cases hrec : parseStringBody f cs2 with
            | none => rw [hrec] at h; simp at h
            | some p =>
              obtain ⟨b2, r2⟩ := p
              rw [hrec] at h
              simp only [Option.map_some', Option.some.injEq, Prod.mk.injEq] at h
              obtain ⟨hb2, hr2⟩ := h
              obtain ⟨t2, hs2, hscan2⟩ := ih cs2 b2 r2 hrec
              refine ⟨c :: e :: t2, ?_, fun d => ?_⟩
              · rw [← hr2, hs2]; rfl
              · have hc : c = '\\' := beq_iff_eq.mp hb
                subst hc
                rw [scanL_cons, scanL_cons]
                have h1 : scanStep (.inStr d) '\\' = .esc d := rfl
                have h2 : scanStep (.esc d) e = .inStr d := rfl
                rw [h1, h2, hscan2 d]
        · rw [if_neg (by simpa using hb)] at h
          cases hrec : parseStringBody f cs with
          | none => rw [hrec] at h; simp at h
          | some p =>
            obtain ⟨b2, r2⟩ := p
            rw [hrec] at h
            simp only [Option.map_some', Option.some.injEq, Prod.mk.injEq] at h
            obtain ⟨hb2, hr2⟩ := h
            obtain ⟨t2, hs2, hscan2⟩ := ih cs b2 r2 hrec
            refine ⟨c :: t2, ?_, fun d => ?_⟩
            · rw [← hr2, hs2]; rfl
            · rw [scanL_cons]
              have h1 : scanStep (.inStr d) c = .inStr d := by
                unfold scanStep
                simp [hq, hb]
              rw [h1, hscan2 d]

theorem scanStep_out_of_atom (c : Char) (h : isAtomChar c = true) (d : Int) :
    scanStep (.out d) c = .out d := by
  refine scanStep_out_id c ?_ ?_ ?_ d <;> rintro rfl <;> exact absurd h (by decide)

theorem scanL_out_of_atoms (l : List Char) (hl : ∀ c ∈ l, isAtomChar c = true)
    (d : Int) : scanL (.out d) l = .out d := by
  induction l with
  | nil => rfl
  | cons c cs ih =>
    rw [scanL_cons, scanStep_out_of_atom c (hl c (by simp)) d]
    exact ih (fun x hx => hl x (by simp [hx]))


theorem parse_consumed (fuel : Nat) :
    (∀ s j r, parseValue fuel s = some (j, r) →
      ∃ t, s = t ++ r ∧ ∀ d : Int, scanL (.out d) t = .out d)
    ∧ (∀ s j r, parseArrayTail fuel s = some (j, r) →
      ∃ t, s = t ++ r ∧ ∀ d : Int, scanL (.out (d + 1)) t = .out d)
    ∧ (∀ s j r, parseElems fuel s = some (j, r) →
      ∃ t, s = t ++ r ∧ ∀ d : Int, scanL (.out (d + 1)) t = .out d)
    ∧ (∀ s j r, parseObjTail fuel s = some (j, r) →
      ∃ t, s = t ++ r ∧ ∀ d : Int, scanL (.out d) t = .out d)
    ∧ (∀ s j r, parseMembers fuel s = some (j, r) →
      ∃ t, s = t ++ r ∧ ∀ d : Int, scanL (.out d) t = .out d) := by
  induction fuel with
  | zero =>
    refine ⟨?_, ?_, ?_, ?_, ?_⟩ <;> intro s j r h <;>
      simp [parseValue, parseArrayTail, parseElems, parseObjTail, parseMembers] at h
  | succ f ih =>
    obtain ⟨ihV, ihA, ihE, ihO, ihM⟩ := ih
    have hcomma : ∀ d : Int, scanStep (.out d) ',' = .out d :=
      fun d => scanStep_out_id ',' (by decide) (by decide) (by decide) d
    have hcolon : ∀ d : Int, scanStep (.out d) ':' = .out d :=
      fun d => scanStep_out_id ':' (by decide) (by decide) (by decide) d
    have hobrace : ∀ d : Int, scanStep (.out d) '{' = .out d :=
      fun d => scanStep_out_id '{' (by decide) (by decide) (by decide) d
    have hcbrace : ∀ d : Int, scanStep (.out d) '}' = .out d :=
      fun d => scanStep_out_id '}' (by decide) (by decide) (by decide) d
    have hquote : ∀ d : Int, scanStep (.out d) '"' = .inStr d := fun _ => rfl
    have hopen : ∀ d : Int, scanStep (.out d) '[' = .out (d + 1) := fun _ => rfl
    have hclose : ∀ d : Int, scanStep (.out (d + 1)) ']' = .out d := by
      intro d
      simp only [scanStep]
      norm_num
      rw [if_neg (by decide), if_neg (by decide)]
    refine ⟨?_, ?_, ?_, ?_, ?_⟩
    -- parseValue
    · intro s j r h
      simp only [parseValue] at h
      obtain ⟨t0, hs0, hws0⟩ := skipWs_consumed s
      cases hws : skipWs s with
      | nil => rw [hws] at h; exact absurd h (by simp)
      | cons c cs =>
        rw [hws] at h hs0
        dsimp only at h
        by_cases hq : c == '"'
        · rw [if_pos hq] at h
          cases hrec : parseStringBody f cs with
          | none => rw [hrec] at h; simp at h
          | some p =>
            obtain ⟨b2, r2⟩ := p
            rw [hrec] at h
            simp only [Option.map_some', Option.some.injEq, Prod.mk.injEq] at h
            obtain ⟨-, hr2⟩ := h
            obtain ⟨t1, hs1, hsc1⟩ := parseStringBody_consumed f cs b2 r2 hrec
            refine ⟨t0 ++ c :: t1, ?_, fun d => ?_⟩
            · rw [hs0, hs1, ← hr2]; simp
            · rw [scanL_append, scanL_out_of_ws t0 hws0 d, scanL_cons,
                  beq_iff_eq.mp hq, hquote d]
              exact hsc1 d
        · rw [if_neg (by simpa using hq)] at h
          by_cases hob : c == '['
          · rw [if_pos hob] at h
            obtain ⟨t1, hs1, hsc1⟩ := ihA cs j r h
            refine ⟨t0 ++ c :: t1, ?_, fun d => ?_⟩
            · rw [hs0, hs1]; simp
            · rw [scanL_append, scanL_out_of_ws t0 hws0 d, scanL_cons,
                  beq_iff_eq.mp hob, hopen d]
              exact hsc1 d
          · rw [if_neg (by simpa using hob)] at h
            by_cases hoc : c == '{'
            · rw [if_pos hoc] at h
              obtain ⟨t1, hs1, hsc1⟩ := ihO cs j r h
              refine ⟨t0 ++ c :: t1, ?_, fun d => ?_⟩
              · rw [hs0, hs1]; simp
              · rw [scanL_append, scanL_out_of_ws t0 hws0 d, scanL_cons,
                    beq_iff_eq.mp hoc, hobrace d]
                exact hsc1 d
            · rw [if_neg (by simpa using hoc)] at h
              by_cases hat : isAtomChar c
              · rw [if_pos hat] at h
                simp only [Option.some.injEq, Prod.mk.injEq] at h
                obtain ⟨-, hr2⟩ := h
                refine ⟨t0 ++ c :: cs.takeWhile isAtomChar, ?_, fun d => ?_⟩
                · rw [hs0, ← hr2]
                  simp [List.takeWhile_append_dropWhile]
                · rw [scanL_append, scanL_out_of_ws t0 hws0 d, scanL_cons,
                      scanStep_out_of_atom c hat d]
                  exact scanL_out_of_atoms _ (fun x hx => List.mem_takeWhile_imp hx) d
              · rw [if_neg hat] at h
                exact absurd h (by simp)
    -- parseArrayTail
    · intro s j r h
      simp only [parseArrayTail] at h
      obtain ⟨t0, hs0, hws0⟩ := skipWs_consumed s
      cases hws : skipWs s with
      | nil =>
        rw [hws] at h
        dsimp only at h
        exact ihE s j r h
      | cons c cs =>
        rw [hws] at h hs0
        dsimp only at h
        by_cases hcb : c == ']'
        · rw [if_pos hcb] at h
          simp only [Option.some.injEq, Prod.mk.injEq] at h
          obtain ⟨-, hr2⟩ := h
          refine ⟨t0 ++ [c], ?_, fun d => ?_⟩
          · rw [hs0, ← hr2]; simp
          · rw [scanL_append, scanL_out_of_ws t0 hws0 (d + 1), scanL_cons,
                beq_iff_eq.mp hcb, hclose d]
            rfl
        · rw [if_neg (by simpa using hcb)] at h
          exact ihE s j r h
    -- parseElems
    · intro s j r h
      simp only [parseElems] at h
      cases hv : parseValue f s with
      | none => rw [hv] at h; simp at h
      | some p =>
        obtain ⟨j1, r1⟩ := p
        rw [hv] at h
        dsimp only at h
        obtain ⟨t1, hs1, hsc1⟩ := ihV s j1 r1 hv
        obtain ⟨t2, hs2, hws2⟩ := skipWs_consumed r1
        cases hws : skipWs r1 with
        | nil => rw [hws] at h; exact absurd h (by simp)
        | cons c cs =>
          rw [hws] at h hs2
          dsimp only at h
          by_cases hcm : c == ','
          · rw [if_pos hcm] at h
            cases hrec : parseElems f cs with
            | none => rw [hrec] at h; simp at h
            | some p2 =>
              obtain ⟨j2, r2⟩ := p2
              rw [hrec] at h
              cases j2 with
              | arr js =>
                dsimp only at h
                simp only [Option.some.injEq, Prod.mk.injEq] at h
                obtain ⟨-, hr2⟩ := h
                obtain ⟨t3, hs3, hsc3⟩ := ihE cs (Json.arr js) r2 hrec
                refine ⟨t1 ++ t2 ++ c :: t3, ?_, fun d => ?_⟩
                · rw [hs1, hs2, hs3, ← hr2]; simp
                · rw [scanL_append, scanL_append, hsc1 (d + 1),
                      scanL_out_of_ws t2 hws2 (d + 1), scanL_cons,
                      beq_iff_eq.mp hcm, hcomma (d + 1)]
                  exact hsc3 d
              | str a => dsimp only at h; exact absurd h (by simp)
              | atom a => dsimp only at h; exact absurd h (by simp)
              | obj fs => dsimp only at h; exact absurd h (by simp)
          · rw [if_neg (by simpa using hcm)] at h
            by_cases hcb : c == ']'
            · rw [if_pos hcb] at h
              simp only [Option.some.injEq, Prod.mk.injEq] at h
              obtain ⟨-, hr2⟩ := h
              refine ⟨t1 ++ t2 ++ [c], ?_, fun d => ?_⟩
              · rw [hs1, hs2, ← hr2]; simp
              · rw [scanL_append, scanL_append, hsc1 (d + 1),
                    scanL_out_of_ws t2 hws2 (d + 1), scanL_cons,
                    beq_iff_eq.mp hcb, hclose d]
                rfl
            · rw [if_neg (by simpa using hcb)] at h
              exact absurd h (by simp)
    -- parseObjTail
    · intro s j r h
      simp only [parseObjTail] at h
      obtain ⟨t0, hs0, hws0⟩ := skipWs_consumed s
      cases hws : skipWs s with
      | nil =>
        rw [hws] at h
        dsimp only at h
        exact ihM s j r h
      | cons c cs =>
        rw [hws] at h hs0
        dsimp only at h
        by_cases hcb : c == '}'
        · rw [if_pos hcb] at h
          simp only [Option.some.injEq, Prod.mk.injEq] at h
          obtain ⟨-, hr2⟩ := h
          refine ⟨t0 ++ [c], ?_, fun d => ?_⟩
          · rw [hs0, ← hr2]; simp
          · rw [scanL_append, scanL_out_of_ws t0 hws0 d, scanL_cons,
                beq_iff_eq.mp hcb, hcbrace d]
            rfl
        · rw [if_neg (by simpa using hcb)] at h
          exact ihM s j r h
    -- parseMembers
    · intro s j r h
      simp only [parseMembers] at h
      obtain ⟨t0, hs0, hws0⟩ := skipWs_consumed s
      cases hws : skipWs s with
      | nil => rw [hws] at h; exact absurd h (by simp)
      | cons c cs =>
        rw [hws] at h hs0
        dsimp only at h
        by_cases hq : c == '"'
        · rw [if_pos hq] at h
          cases hsb : parseStringBody f cs with
          | none => rw [hsb] at h; simp at h
          | some pk =>
            obtain ⟨k, r1⟩ := pk
            rw [hsb] at h
            dsimp only at h
            obtain ⟨tk, hsk, hsck⟩ := parseStringBody_consumed f cs k r1 hsb
            obtain ⟨t2, hs2, hws2⟩ := skipWs_consumed r1
            cases hwsr : skipWs r1 with
            | nil => rw [hwsr] at h; exact absurd h (by simp)
            | cons c2 cs2 =>
              rw [hwsr] at h hs2
              dsimp only at h
              by_cases hc2 : c2 == ':'
              · rw [if_pos hc2] at h
                cases hv : parseValue f cs2 with
                | none => rw [hv] at h; simp at h
                | some pv =>
                  obtain ⟨jv, r2⟩ := pv
                  rw [hv] at h
                  dsimp only at h
                  obtain ⟨tv, hsv, hscv⟩ := ihV cs2 jv r2 hv
                  obtain ⟨t3, hs3, hws3⟩ := skipWs_consumed r2
                  cases hwsr2 : skipWs r2 with
                  | nil => rw [hwsr2] at h; exact absurd h (by simp)
                  | cons c3 cs3 =>
                    rw [hwsr2] at h hs3
                    dsimp only at h
                    by_cases hc3 : c3 == ','
                    · rw [if_pos hc3] at h
                      cases hrec : parseMembers f cs3 with
                      | none => rw [hrec] at h; simp at h
                      | some pm =>
                        obtain ⟨jm, r3⟩ := pm
                        rw [hrec] at h
                        cases jm with
                        | obj fs =>
                          dsimp only at h
                          simp only [Option.some.injEq, Prod.mk.injEq] at h
                          obtain ⟨-, hr3⟩ := h
                          obtain ⟨tm, hsm, hscm⟩ := ihM cs3 (Json.obj fs) r3 hrec
                          refine ⟨t0 ++ c :: tk ++ t2 ++ c2 :: tv ++ t3 ++ c3 :: tm,
                            ?_, fun d => ?_⟩
                          · rw [hs0, hsk, hs2, hsv, hs3, hsm, ← hr3]; simp
                          · simp only [scanL_append, scanL_cons]
                            rw [scanL_out_of_ws t0 hws0 d, beq_iff_eq.mp hq,
                                hquote d, hsck d, scanL_out_of_ws t2 hws2 d,
                                beq_iff_eq.mp hc2, hcolon d, hscv d,
                                scanL_out_of_ws t3 hws3 d, beq_iff_eq.mp hc3,
                                hcomma d]
                            exact hscm d
                        | str a => dsimp only at h; exact absurd h (by simp)
                        | atom a => dsimp only at h; exact absurd h (by simp)
                        | arr xs => dsimp only at h; exact absurd h (by simp)
                    · rw [if_neg (by simpa using hc3)] at h
                      by_cases hc3b : c3 == '}'
                      · rw [if_pos hc3b] at h
                        simp only [Option.some.injEq, Prod.mk.injEq] at h
                        obtain ⟨-, hr3⟩ := h
                        refine ⟨t0 ++ c :: tk ++ t2 ++ c2 :: tv ++ t3 ++ [c3],
                          ?_, fun d => ?_⟩
                        · rw [hs0, hsk, hs2, hsv, hs3, ← hr3]; simp
                        · simp only [scanL_append, scanL_cons]
                          rw [scanL_out_of_ws t0 hws0 d, beq_iff_eq.mp hq,
                              hquote d, hsck d, scanL_out_of_ws t2 hws2 d,
                              beq_iff_eq.mp hc2, hcolon d, hscv d,
                              scanL_out_of_ws t3 hws3 d, beq_iff_eq.mp hc3b,
                              hcbrace d]
                          rfl
                      · rw [if_neg (by simpa using hc3b)] at h
                        exact absurd h (by simp)
              · rw [if_neg (by simpa using hc2)] at h
                exact absurd h (by simp)
        · rw [if_neg (by simpa using hq)] at h
          exact absurd h (by simp)

theorem jsonParse_balanced (s : List Char) (j : Json) (h : jsonParse s = some j) :
    scanL (.out 0) s = .out 0 := by
  unfold jsonParse at h
  cases hp : parseValue (4 * s.length + 8) s with
  | none => rw [hp] at h; exact absurd h (by simp)
  | some pr =>
    obtain ⟨j2, r⟩ := pr
    rw [hp] at h
    dsimp only at h
    by_cases hws : skipWs r = []
    · obtain ⟨t, hst, hscan⟩ := (parse_consumed (4 * s.length + 8)).1 s j2 r hp
      rw [hst, scanL_append, hscan 0]
      exact scanL_out_of_ws r (skipWs_nil_all_ws r hws) 0
    · rw [if_neg hws] at h
      exact absurd h (by simp)

theorem jsonParse_none_of_unbalanced (s : List Char)
    (h : scanL (.out 0) s ≠ .out 0) : jsonParse s = none := by
  cases hp : jsonParse s with
  | none => rfl
  | some j => exact absurd (jsonParse_balanced s j hp) h

theorem leadsWith_single (c : Char) (s : List Char) :
    leadsWith [c] s = match s with
      | [] => false
      | c2 :: _ => c == c2 := by
  cases s with
  | nil => rfl
  | cons c2 rest =>
    show (c == c2 && leadsWith [] rest) = (c == c2)
    rw [show leadsWith [] rest = true from rfl, Bool.and_true]

theorem firstOcc_single_append (c : Char) (x y : List Char) (hx : c ∉ x) :
    firstOcc [c] (x ++ c :: y) = some x.length := by
  induction x with
  | nil =>
    have hl : leadsWith [c] (c :: y) = true := by
      rw [leadsWith_single]
      exact beq_self_eq_true c
    rw [List.nil_append, firstOcc, if_pos hl]
    rfl
  | cons a x2 ih =>
    have ha : a ≠ c := fun h => hx (h ▸ List.mem_cons_self a x2)
    have hl : ¬(leadsWith [c] (a :: (x2 ++ c :: y)) = true) := by
      rw [leadsWith_single]
      simp only [beq_iff_eq]
      exact fun h => ha h.symm
    rw [List.cons_append, firstOcc, if_neg hl,
        ih (fun h => hx (List.mem_cons_of_mem a h))]
    rfl

theorem jsIndexOf_single (s : List Char) (c : Char) (p : Nat) (hp : p ≤ s.length)
    (x y : List Char) (hsplit : s.drop p = x ++ c :: y) (hx : c ∉ x) :
    jsIndexOf s [c] (p : Int) = ((p + x.length : Nat) : Int) := by
  simp only [jsIndexOf]
  have hstart : (max 0 (min (p : Int) (s.length : Int))).toNat = p := by omega
  rw [hstart, hsplit, firstOcc_single_append c x y hx]
  dsimp only
  push_cast
  ring

theorem jsSlice_nat (s : List Char) (p q : Nat) (hpq : p ≤ q) (hq : q ≤ s.length) :
    jsSlice s (p : Int) (q : Int) = (s.drop p).take (q - p) := by
  have hp : p ≤ s.length := le_trans hpq hq
  simp only [jsSlice]
  rw [if_neg (by omega : ¬((p : Int) < 0)), if_neg (by omega : ¬((q : Int) < 0)),
      min_eq_left (by omega : (p : Int) ≤ (s.length : Int)),
      min_eq_left (by omega : (q : Int) ≤ (s.length : Int)),
      Int.toNat_natCast, show ((q : Int) - (p : Int)).toNat = q - p by omega]

theorem extract_truncates (a u w : List Char) (dN : Nat)
    (hd : jsIndexOf (a ++ '[' :: (u ++ ']' :: w)) scanMarker 0 = (dN : Int))
    (hdA : dN ≤ a.length)
    (ha : '[' ∉ a.drop dN)
    (hu : ']' ∉ u) :
    extractViolText (a ++ '[' :: (u ++ ']' :: w)) = '[' :: (u ++ [']']) := by
  have hlen : (a ++ '[' :: (u ++ ']' :: w)).length
      = a.length + u.length + w.length + 2 := by
    simp [List.length_append]
    omega
  have hdrop1 : (a ++ '[' :: (u ++ ']' :: w)).drop dN
      = a.drop dN ++ '[' :: (u ++ ']' :: w) := by
    rw [List.drop_append_eq_append_drop, Nat.sub_eq_zero_of_le hdA, List.drop_zero]
  have hjs1 : jsIndexOf (a ++ '[' :: (u ++ ']' :: w)) ['['] (dN : Int)
      = ((a.length : Nat) : Int) := by
    have := jsIndexOf_single (a ++ '[' :: (u ++ ']' :: w)) '[' dN
      (by rw [hlen]; omega) (a.drop dN) (u ++ ']' :: w) hdrop1 ha
    rw [this, List.length_drop]
    congr 1
    omega
  have hdrop2 : (a ++ '[' :: (u ++ ']' :: w)).drop a.length
      = ('[' :: u) ++ ']' :: w := by
    rw [List.drop_append_eq_append_drop, Nat.sub_self, List.drop_zero,
        List.drop_of_length_le (le_refl a.length), List.nil_append]
    rfl
  have hnotmem2 : ']' ∉ '[' :: u := by
    intro hmem
    rcases List.mem_cons.mp hmem with hmem | hmem
    · exact absurd hmem (by decide)
    · exact hu hmem
  have hjs2 : jsIndexOf (a ++ '[' :: (u ++ ']' :: w)) [']'] (a.length : Int)
      = ((a.length + u.length + 1 : Nat) : Int) := by
    have := jsIndexOf_single (a ++ '[' :: (u ++ ']' :: w)) ']' a.length
      (by rw [hlen]; omega) ('[' :: u) w hdrop2 hnotmem2
    rw [this]
    push_cast [List.length_cons]
    ring
  have htake : (('[' :: u) ++ ']' :: w).take (u.length + 2) = '[' :: (u ++ [']']) := by
    have h2 : u.length + 2 = ('[' :: u).length + 1 := by simp
    rw [h2, List.take_append_eq_append_take,
        List.take_of_length_le (by simp : ('[' :: u).length ≤ ('[' :: u).length + 1),
        Nat.add_sub_cancel_left, List.take_succ_cons, List.take_zero]
    rfl
  simp only [extractViolText]
  rw [hd, hjs1, hjs2, show ((a.length + u.length + 1 : Nat) : Int) + 1
      = ((a.length + u.length + 2 : Nat) : Int) by push_cast; ring,
      jsSlice_nat _ _ _ (by omega) (by rw [hlen]; omega),
      show a.length + u.length + 2 - a.length = u.length + 2 by omega,
      hdrop2, htake]

/-- C6: every failure on the client pipeline is converted to a fallback:
whenever `runAccessibilityCheck` hits its catch (fetch throw, non-ok
response, malformed body) it returns the empty result `{violations: [],
passes: []}`, and whenever `analyzePage` hits any failure (fetch throw,
non-ok response, missing report field, parse failure of the report string)
it returns the locally recomputed `getSimulatedAnalysis`; both functions are
total, so the user always receives a result. -/
theorem C6_fallbacks (f : FetchOutcome) (o : AnalyzeCallOutcome)
    (ax : AxeResults) :
    (scanFellBack f = true →
      runAccessibilityCheck f = { violations := [], passes := [] })
    ∧ (analyzeFellBack o = true → analyzePage ax o = getSimulatedAnalysis ax) := by
  constructor
  · intro h
    cases f with
    | failure m => rfl
    | response ok data =>
      cases ok with
      | true =>
        cases data with
        | none => rfl
        | some d => exact absurd h (by simp [scanFellBack])
      | false =>
        cases data with
        | none => rfl
        | some d => rfl
  · intro h
    cases o with
    | failure m => rfl
    | httpNotOk st => rfl
    | okNoReport => rfl
    | okReport parsed =>
      cases parsed with
      | none => rfl
      | some r => exact absurd h (by simp [analyzeFellBack])

/-- C6 witness at concrete failure outcomes of both pipeline stages. -/
theorem C6_fallbacks_witness :
    runAccessibilityCheck (.failure "network error")
        = { violations := [], passes := [] }
    ∧ analyzePage { violations := [], passes := [] } (.okReport none)
        = getSimulatedAnalysis { violations := [], passes := [] } :=
  ⟨(C6_fallbacks (.failure "network error") (.okReport none)
      { violations := [], passes := [] }).1 rfl,
   (C6_fallbacks (.failure "network error") (.okReport none)
      { violations := [], passes := [] }).2 rfl⟩

/-- C7: `GET /scan` responds with a `{violations, passes}` body, or with a
400 error body exactly when the url parameter is missing or empty, or with a
500 error body when the fetch/analysis fails; no other response shapes
occur. -/
theorem C7_scan_shapes (url : Option (List Char)) (o : ScanOutcome) :
    (scanHandler url o = .err 400 "URL parameter is required"
      ↔ (url = none ∨ url = some []))
    ∧ ((∃ vs ps, scanHandler url o = .ok vs ps)
      ∨ scanHandler url o = .err 400 "URL parameter is required"
      ∨ (∃ m, scanHandler url o = .err 500 m)) := by
  cases url with
  | none =>
    exact ⟨by simp [scanHandler], Or.inr (Or.inl rfl)⟩
  | some u =>
    by_cases hu : u = []
    · subst hu
      exact ⟨by simp [scanHandler], Or.inr (Or.inl rfl)⟩
    · cases o with
      | failure m =>
        constructor
        · constructor
          · intro h
            simp [scanHandler, hu] at h
          · rintro (h | h) <;> simp_all
        · exact Or.inr (Or.inr ⟨"Failed to analyze website: " ++ m,
            by simp [scanHandler, hu]⟩)
      | results vs ps =>
        constructor
        · constructor
          · intro h
            simp [scanHandler, hu] at h
          · rintro (h | h) <;> simp_all
        · exact Or.inl ⟨vs.map (fun v =>
            { v with nodes := v.nodes.map (fun n =>
                { n with failureSummary := n.failureSummary }) }), ps,
            by simp [scanHandler, hu]⟩

/-- C8: the claim fails on the missing-prompt path: `POST /analyze` without
a prompt responds 400 with a body containing only an `error` field — neither
a `report` success body nor an `{error, details}` body. -/
theorem C8_counterexample :
    analyzeHandler none = .err 400 "Prompt is required" none
    ∧ ¬((∃ rep, analyzeHandler none = .ok rep)
      ∨ (∃ st e d, analyzeHandler none = .err st e (some d))) := by
  refine ⟨rfl, ?_⟩
  rintro (⟨rep, h⟩ | ⟨st, e, d, h⟩) <;> simp [analyzeHandler] at h

/-- C8 (amended): `POST /analyze` responds `{report}` on success, 400 with
`{error}` alone when the prompt is missing or empty, and 500 with both
`error` and `details` on every other failure. -/
theorem C8_amended_shapes (prompt : Option (List Char)) :
    ((prompt = none ∨ prompt = some []) →
      analyzeHandler prompt = .err 400 "Prompt is required" none)
    ∧ (∀ p, prompt = some p → p ≠ [] →
      (∃ rep, analyzeHandler prompt = .ok rep)
      ∨ (∃ e d, analyzeHandler prompt = .err 500 e (some d))) := by
  constructor
  · rintro (h | h) <;> subst h
    · rfl
    · rfl
  · rintro p rfl hne
    simp only [analyzeHandler]
    rw [if_neg hne]
    cases hj : jsonParse (extractViolText p) with
    | none => exact Or.inr ⟨_, _, rfl⟩
    | some j =>
      cases j with
      | arr xs => exact Or.inl ⟨_, rfl⟩
      | str s2 => exact Or.inr ⟨_, _, rfl⟩
      | atom t2 => exact Or.inr ⟨_, _, rfl⟩
      | obj fs => exact Or.inr ⟨_, _, rfl⟩

/-- C8 (amended) witness on the missing-prompt request. -/
theorem C8_amended_shapes_witness :
    analyzeHandler none = .err 400 "Prompt is required" none :=
  (C8_amended_shapes none).1 (Or.inl rfl)

/-- C9: the `/analyze` extraction takes the prompt's substring from the
first `[` at or after the marker up to the first following `]` inclusive.
For every prompt of the shape `a ++ "[" ++ u ++ "]" ++ w` — with the marker
first occurring at `dN` inside `a`, no `[` between the marker and the shown
one, and no `]` inside `u` — the extracted text is exactly `"[" ++ u ++ "]"`,
which is a proper prefix of the remaining prompt when `w` is nonempty.  When
the embedded array opens a nested array that is still unclosed there (the
scanner ends at a positive bracket depth, as it does whenever a violation's
nodes array closes first), `JSON.parse` fails on the truncated text and the
endpoint responds 500 instead of producing a report. -/
theorem C9_truncated_extraction (a u w : List Char) (dN : Nat)
    (hd : jsIndexOf (a ++ '[' :: (u ++ ']' :: w)) scanMarker 0 = (dN : Int))
    (hdA : dN ≤ a.length)
    (ha : '[' ∉ a.drop dN)
    (hu : ']' ∉ u)
    (hw : w ≠ [])
    (hnb : scanL (.out 0) ('[' :: (u ++ [']'])) ≠ .out 0) :
    extractViolText (a ++ '[' :: (u ++ ']' :: w)) = '[' :: (u ++ [']'])
    ∧ '[' :: (u ++ ']' :: w) = ('[' :: (u ++ [']'])) ++ w
    ∧ ('[' :: (u ++ [']'])).length < ('[' :: (u ++ ']' :: w)).length
    ∧ jsonParse ('[' :: (u ++ [']'])) = none
    ∧ analyzeHandler (some (a ++ '[' :: (u ++ ']' :: w)))
        = .err 500 "Analysis failed: Invalid accessibility data format"
            (some "Error: Invalid accessibility data format") := by
  have hext := extract_truncates a u w dN hd hdA ha hu
  have hparse := jsonParse_none_of_unbalanced _ hnb
  refine ⟨hext, by simp, ?_, hparse, ?_⟩
  · have hwlen : 0 < w.length := List.length_pos.mpr hw
    simp
    omega
  · have hpne : a ++ '[' :: (u ++ ']' :: w) ≠ [] := by simp
    simp only [analyzeHandler]
    rw [if_neg hpne, hext, hparse]

/-- C9 witness: a concrete realistic prompt whose first violation has an
open nodes array; the extraction truncates inside it and the handler
responds 500. -/
theorem C9_truncated_extraction_witness :
    analyzeHandler (some (c9PromptA ++ '[' :: (c9U ++ ']' :: c9W)))
      = .err 500 "Analysis failed: Invalid accessibility data format"
          (some "Error: Invalid accessibility data format") :=
  (C9_truncated_extraction c9PromptA c9U c9W 0 (by decide) (by decide)
    (by decide) (by decide) (by decide) (by decide)).2.2.2.2
